import Mathlib

/-!
Verification development for the unit-converter core
(`slick_unit_converter_plus.py`): the unit registry with its static seed
table, the expression regex, the restricted arithmetic evaluator over the
Python expression AST, `parse_and_convert`, and the batch loop.

Modelling conventions:
* Python `float` arithmetic is idealized as exact rational arithmetic (`ℚ`);
  every numeric literal of the source is embedded as the exact rational its
  decimal text denotes.  `math.pi` and `math.e` are embedded as the exact
  rational values of the IEEE-754 binary64 constants the source reads.
* Python dicts are embedded as insertion-ordered association lists where an
  insert with an existing key overwrites in place, as CPython dicts do.
* Exception messages are embedded as result strings of `Except String`;
  the messages mirror the source text (the AST-walk error is abstracted to
  a single message, since no behaviour depends on its exact wording).
* The opaque transcendental float functions (`math.sqrt`, `math.sin`, …,
  and float `**` at non-integer exponents) are parameters of the embedding
  (`MathSem`), since their values are irrational; no claim depends on them.
-/

/-- Single quote character, used inside embedded Python error messages. -/
def pyQuote : String := String.singleton (Char.ofNat 39)

/-- Exact rational value of the binary64 constant `math.pi`. -/
def mathPi : ℚ := 884279719003555 / 281474976710656

/-- Exact rational value of the binary64 constant `math.e`. -/
def mathE : ℚ := 6121026514868073 / 2251799813685248

/-- Python `str.isspace` relevant set / regex `\s` (ASCII part). -/
def pyIsSpace (c : Char) : Bool :=
  c == ' ' || c == '\t' || c == '\n' || c == '\x0d' || c == '\x0b' || c == '\x0c'

/-- Regex `\w` (ASCII part: letters, digits, underscore). -/
def pyIsWordChar (c : Char) : Bool :=
  c.isAlphanum || c == '_'

/-- Python `str.lower()` (ASCII case folding, which covers all source keys). -/
def pyLower (s : String) : String := String.mk (s.data.map Char.toLower)

/-- Python `str.strip()`: drop leading and trailing whitespace. -/
def pyStrip (s : String) : String :=
  String.mk (((s.data.dropWhile pyIsSpace).reverse.dropWhile pyIsSpace).reverse)

/-- A registered unit: canonical name, transforms to/from the category base,
and the alias tuple (source class `Unit`). -/
structure Unit' where
  name : String
  to_base : ℚ → ℚ
  from_base : ℚ → ℚ
  aliases : List String

/-- A category: Python dict from lowercase alias to unit. -/
abbrev CatMap := List (String × Unit')

/-- The registry: Python dict from category name to category map
(source class `UnitRegistry`, field `categories`). -/
abbrev UnitRegistry := List (String × CatMap)

/-- Python dict assignment `m[k] = v`: overwrite in place or append. -/
def dictInsert {α : Type} (k : String) (v : α) (m : List (String × α)) :
    List (String × α) :=
  if m.any (fun p => p.1 == k) then
    m.map (fun p => if p.1 == k then (k, v) else p)
  else m ++ [(k, v)]

/-- Python dict lookup `m.get(k)`. -/
def dictFind {α : Type} (m : List (String × α)) (k : String) : Option α :=
  (m.find? (fun p => p.1 == k)).map (fun p => p.2)

/-- Python `k in m` for a dict. -/
def dictContains {α : Type} (m : List (String × α)) (k : String) : Bool :=
  m.any (fun p => p.1 == k)

/-- Auxiliary of `pyDedup`, keeping the first occurrence of each key. -/
def pyDedupAux (seen : List String) : List String → List String
  | [] => []
  | x :: xs =>
    if seen.contains x then pyDedupAux seen xs
    else x :: pyDedupAux (x :: seen) xs

/-- Python set `{name, *aliases}`: duplicates removed (iteration order of a
CPython set is unspecified; first occurrence kept here — all members of one
`add` call map to the same unit, so no registry behaviour depends on it). -/
def pyDedup (l : List String) : List String := pyDedupAux [] l

/-- Transform installed by `UnitRegistry.add` in linear mode:
`(x + 0.0 - 0.0*b) * f if b == 0 else (x + (-b)) * f` from the source. -/
def linear_to_base (f b x : ℚ) : ℚ :=
  if b = 0 then (x + 0 - 0 * b) * f else (x + (-b)) * f

/-- Transform installed by `UnitRegistry.add` in linear mode:
`(x / f) + b` from the source. -/
def linear_from_base (f b x : ℚ) : ℚ := x / f + b

/-- `UnitRegistry.add`: register a unit under its canonical name and all
aliases, case-folded.  `factor` is `Option` because the source default is
`None` (linear-mode calls always supply it; `getD 0` is never reached with
`none` by a linear call of the source).  Custom mode receives both
transforms (`getD id` is likewise never reached by a source call). -/
def UnitRegistry.add (reg : UnitRegistry) (category nm : String)
    (factor : Option ℚ) (offset : ℚ)
    (to_base from_base : Option (ℚ → ℚ)) (aliases : List String) :
    UnitRegistry :=
  let keys := pyDedup (nm :: aliases)
  let u : Unit' :=
    match to_base, from_base with
    | none, none =>
        ⟨nm, linear_to_base (factor.getD 0) offset,
             linear_from_base (factor.getD 0) offset, keys⟩
    | tb, fb => ⟨nm, tb.getD id, fb.getD id, keys⟩
  let cat := (dictFind reg category).getD []
  let cat' := keys.foldl (fun c a => dictInsert (pyLower a) u c) cat
  dictInsert category cat' reg

/-- `UnitRegistry.get`: case-insensitive alias lookup scoped to a category. -/
def UnitRegistry.get (reg : UnitRegistry) (category unit_key : String) :
    Option Unit' :=
  dictFind ((dictFind reg category).getD []) (pyLower unit_key)

/-- Source loop body of `detect_category`: both lowercased keys resolve. -/
def catHasBoth (units : CatMap) (al bl : String) : Bool :=
  dictContains units al && dictContains units bl

/-- `UnitRegistry.detect_category`: first category, in dict iteration
(= insertion) order, containing both lowercased keys. -/
def UnitRegistry.detect_category (reg : UnitRegistry) (a b : String) :
    Option String :=
  (reg.find? (fun p => catHasBoth p.2 (pyLower a) (pyLower b))).map
    (fun p => p.1)

/-- Helper `add_linear` from the source: base unit with factor 1, then the
listed `(name, factor, aliases)` triples. -/
def add_linear (reg : UnitRegistry) (category base_name : String)
    (pairs : List (String × ℚ × List String)) : UnitRegistry :=
  let reg := UnitRegistry.add reg category base_name (some 1) 0 none none
    [base_name]
  pairs.foldl
    (fun r p => UnitRegistry.add r category p.1 (some p.2.1) 0 none none p.2.2)
    reg

/-- Temperature transform `C_to_K` from the source. -/
def C_to_K (x : ℚ) : ℚ := x + 273.15
/-- Temperature transform `K_to_C` from the source. -/
def K_to_C (x : ℚ) : ℚ := x - 273.15
/-- Temperature transform `F_to_K` from the source. -/
def F_to_K (x : ℚ) : ℚ := (x - 32) * 5 / 9 + 273.15
/-- Temperature transform `K_to_F` from the source. -/
def K_to_F (x : ℚ) : ℚ := (x - 273.15) * 9 / 5 + 32
/-- Temperature transform `R_to_K` from the source. -/
def R_to_K (x : ℚ) : ℚ := x * 5 / 9
/-- Temperature transform `K_to_R` from the source. -/
def K_to_R (x : ℚ) : ℚ := x * 9 / 5

/-- The module-level registry `ureg`, populated exactly as the source's
registration calls, in their order. -/
def ureg : UnitRegistry :=
  let r : UnitRegistry := []
  -- Length (base: meter)
  let r := add_linear r "length" "m" [
    ("km", 1000, ["kilometer", "kilometre", "kilometers", "kilometres", "kms"]),
    ("cm", 0.01, ["centimeter", "centimetre", "centimeters", "centimetres", "cms"]),
    ("mm", 0.001, ["millimeter", "millimetre", "millimeters", "millimetres", "mms"]),
    ("μm", 1e-6, ["um", "micrometer", "micrometre", "micron", "microns"]),
    ("nm", 1e-9, ["nanometer", "nanometre", "nanometers", "nanometres"]),
    ("in", 0.0254, ["inch", "inches", "\""]),
    ("ft", 0.3048, ["foot", "feet", pyQuote]),
    ("yd", 0.9144, ["yard", "yards"]),
    ("mi", 1609.344, ["mile", "miles"])]
  -- Mass (base: kilogram)
  let r := add_linear r "mass" "kg" [
    ("g", 0.001, ["gram", "grams"]),
    ("mg", 1e-6, ["milligram", "milligrams"]),
    ("lb", 0.45359237, ["lbs", "pound", "pounds"]),
    ("oz", 0.028349523125, ["ounce", "ounces"]),
    ("ton", 1000, ["t", "tonne", "tonnes", "metric ton", "metric tons"])]
  -- Time (base: second)
  let r := add_linear r "time" "s" [
    ("ms", 1e-3, ["millisecond", "milliseconds"]),
    ("μs", 1e-6, ["us", "microsecond", "microseconds"]),
    ("min", 60, ["minute", "minutes"]),
    ("h", 3600, ["hr", "hour", "hours"]),
    ("day", 86400, ["days", "d"])]
  -- Speed (base: m/s)
  let r := UnitRegistry.add r "speed" "m/s" (some 1) 0 none none
    ["mps", "meter/second", "metre/second", "meters/second", "metres/second"]
  let r := UnitRegistry.add r "speed" "km/h" (some (1000 / 3600)) 0 none none
    ["kph", "kmph", "kilometer/hour", "kilometre/hour"]
  let r := UnitRegistry.add r "speed" "mph" (some (1609.344 / 3600)) 0 none none
    ["mile/hour", "miles/hour"]
  let r := UnitRegistry.add r "speed" "ft/s" (some 0.3048) 0 none none
    ["fps", "foot/second", "feet/second", "ftps"]
  let r := UnitRegistry.add r "speed" "kn" (some (1852 / 3600)) 0 none none
    ["knot", "knots"]
  -- Pressure (base: pascal)
  let r := add_linear r "pressure" "Pa" [
    ("kPa", 1000, []),
    ("bar", 1e5, []),
    ("mbar", 100, ["millibar", "hPa"]),
    ("atm", 101325, []),
    ("psi", 6894.757293168, ["pound-force/in^2", "lb/in^2"])]
  -- Energy (base: joule)
  let r := add_linear r "energy" "J" [
    ("kJ", 1000, []),
    ("Wh", 3600, ["watt-hour", "watt hour"]),
    ("kWh", 3.6e6, ["kilowatt-hour", "kilowatt hour"]),
    ("cal", 4.184, ["small calorie", "calorie"]),
    ("kcal", 4184, ["Cal", "food calorie"]),
    ("eV", 1.602176634e-19, [])]
  -- Power (base: watt)
  let r := add_linear r "power" "W" [
    ("kW", 1000, []),
    ("MW", 1e6, []),
    ("hp", 745.6998715822702, ["horsepower"])]
  -- Frequency (base: hertz)
  let r := add_linear r "frequency" "Hz" [
    ("kHz", 1e3, []),
    ("MHz", 1e6, []),
    ("GHz", 1e9, []),
    ("rpm", 1 / 60, [])]
  -- Area (base: m^2)
  let r := add_linear r "area" "m^2" [
    ("cm^2", 1e-4, []),
    ("mm^2", 1e-6, []),
    ("km^2", 1e6, []),
    ("in^2", 0.00064516, []),
    ("ft^2", 0.09290304, []),
    ("yd^2", 0.83612736, []),
    ("acre", 4046.8564224, []),
    ("hectare", 10000, ["ha"])]
  -- Volume (base: m^3)
  let r := add_linear r "volume" "m^3" [
    ("L", 0.001, ["liter", "litre", "liters", "litres"]),
    ("mL", 1e-6, ["ml", "milliliter", "millilitre"]),
    ("cm^3", 1e-6, ["cc", "cubic centimeter", "cubic centimetre"]),
    ("in^3", 1.6387064e-5, ["cu in"]),
    ("ft^3", 0.028316846592, ["cu ft"]),
    ("gal", 0.003785411784, ["gallon", "gallons", "US gal"]),
    ("qt", 0.000946352946, ["quart", "quarts"]),
    ("pt", 0.000473176473, ["pint", "pints"]),
    ("fl oz", 2.95735295625e-5, ["fluid ounce", "fl. oz."])]
  -- Data (base: byte)
  let r := add_linear r "data" "B" [
    ("KB", 1024, []), ("MB", 1024 ^ 2, []), ("GB", 1024 ^ 3, []),
    ("TB", 1024 ^ 4, []), ("bit", 1 / 8, ["b"]), ("Kb", 1024 / 8, []),
    ("Mb", 1024 ^ 2 / 8, []), ("Gb", 1024 ^ 3 / 8, []), ("Tb", 1024 ^ 4 / 8, [])]
  -- Angle (base: radian)
  let r := UnitRegistry.add r "angle" "rad" (some 1) 0 none none
    ["radian", "radians"]
  let r := UnitRegistry.add r "angle" "deg" (some (mathPi / 180)) 0 none none
    ["degree", "degrees"]
  let r := UnitRegistry.add r "angle" "grad" (some (mathPi / 200)) 0 none none
    ["gon", "grade"]
  let r := UnitRegistry.add r "angle" "turn" (some (2 * mathPi)) 0 none none
    ["rev", "revolution"]
  -- Temperature (non-linear; base: Kelvin)
  let r := UnitRegistry.add r "temperature" "K" none 0
    (some (fun x => x)) (some (fun x => x)) ["kelvin", "kelvins", "k"]
  let r := UnitRegistry.add r "temperature" "C" none 0
    (some C_to_K) (some K_to_C) ["°C", "celsius", "degC"]
  let r := UnitRegistry.add r "temperature" "F" none 0
    (some F_to_K) (some K_to_F) ["°F", "fahrenheit", "degF"]
  let r := UnitRegistry.add r "temperature" "R" none 0
    (some R_to_K) (some K_to_R) ["rankine", "°R"]
  r

/-! ### The expression regex `EXPR_PAT`

`^\s*(?:convert\s+)?(?P<value>[-+*/^().\w\s]+?)\s*(?P<from>[^\d\s][^0-9]*?)`
`\s+(?:to|in)\s+(?P<to>.+?)\s*$` with `re.IGNORECASE`, embedded as a
backtracking matcher specialized to this pattern.  Every quantified
sub-pattern is a single character class, so the engine only needs runs of a
class, tried lazily (shortest first) or greedily (longest first), plus
case-insensitive literals and ordered alternation — exactly the exploration
order of CPython's `re` engine, so captured groups agree with it. -/

/-- Character class `[-+*/^().\w\s]` of the value group. -/
def valueClass (c : Char) : Bool :=
  c == '-' || c == '+' || c == '*' || c == '/' || c == '^' ||
  c == '(' || c == ')' || c == '.' || pyIsWordChar c || pyIsSpace c

/-- Lazy run of a character class: try the continuation after consuming no
further character first, then extend one character at a time.  `acc` holds
the already-consumed characters in reverse; the continuation receives the
full consumed run (in order) and the remaining input. -/
def lazyRunAux {R : Type} (p : Char → Bool) :
    List Char → List Char → (List Char → List Char → Option R) → Option R
  | cs, acc, k =>
    match k acc.reverse cs with
    | some r => some r
    | none =>
      match cs with
      | [] => none
      | c :: rest => if p c then lazyRunAux p rest (c :: acc) k else none

/-- Greedy run of a character class: consume as many class characters as
possible, backtracking to shorter runs when the continuation fails. -/
def greedyRunAux {R : Type} (p : Char → Bool) :
    List Char → List Char → (List Char → List Char → Option R) → Option R
  | cs, acc, k =>
    match cs with
    | c :: rest =>
      if p c then
        match greedyRunAux p rest (c :: acc) k with
        | some r => some r
        | none => k acc.reverse (c :: rest)
      else k acc.reverse (c :: rest)
    | [] => k acc.reverse []

/-- Case-insensitive literal: consume `w` from the input, returning the rest. -/
def litCI : List Char → List Char → Option (List Char)
  | [], cs => some cs
  | w :: ws, c :: cs => if w.toLower == c.toLower then litCI ws cs else none
  | _ :: _, [] => none

/-- Matched groups: value text, from-unit text, to-unit text. -/
abbrev MatchGroups := String × String × String

/-- Tail of the pattern `\s*$` ( `$` also matches just before a final
newline, as in Python `re`). -/
def matchEnd (v f t : List Char) (cs : List Char) : Option MatchGroups :=
  greedyRunAux pyIsSpace cs [] (fun _ rest =>
    if rest.isEmpty || rest == ['\n'] then
      some (String.mk v, String.mk f, String.mk t)
    else none)

/-- To-group `(?P<to>.+?)` (lazy, `.` excludes newline) then `\s*$`. -/
def matchTo (v f : List Char) (cs : List Char) : Option MatchGroups :=
  match cs with
  | c :: rest =>
    if c != '\n' then
      lazyRunAux (fun ch => ch != '\n') rest [c]
        (fun tchars cs2 => matchEnd v f tchars cs2)
    else none
  | [] => none

/-- `\s+` after the separator keyword, then the to-group. -/
def afterSep (v f : List Char) (cs : List Char) : Option MatchGroups :=
  match cs with
  | c :: rest =>
    if pyIsSpace c then
      greedyRunAux pyIsSpace rest [c] (fun _ cs2 => matchTo v f cs2)
    else none
  | [] => none

/-- `\s+(?:to|in)` then the rest: greedy whitespace, then the alternation
`to|in` tried in order (case-insensitively). -/
def matchSep (v f : List Char) (cs : List Char) : Option MatchGroups :=
  match cs with
  | c :: rest =>
    if pyIsSpace c then
      greedyRunAux pyIsSpace rest [c] (fun _ cs2 =>
        match (match litCI ['t', 'o'] cs2 with
               | some cs3 => afterSep v f cs3
               | none => none) with
        | some r => some r
        | none =>
          match litCI ['i', 'n'] cs2 with
          | some cs3 => afterSep v f cs3
          | none => none)
    else none
  | [] => none

/-- From-group `(?P<from>[^\d\s][^0-9]*?)`: one non-digit non-space
character, then a lazy run of non-digits, then the separator. -/
def matchFrom (v : List Char) (cs : List Char) : Option MatchGroups :=
  match cs with
  | c :: rest =>
    if !c.isDigit && !pyIsSpace c then
      lazyRunAux (fun ch => !ch.isDigit) rest [c]
        (fun fchars cs2 => matchSep v fchars cs2)
    else none
  | [] => none

/-- `\s*` between the value group and the from-group. -/
def afterValue (v : List Char) (cs : List Char) : Option MatchGroups :=
  greedyRunAux pyIsSpace cs [] (fun _ cs2 => matchFrom v cs2)

/-- Value group `(?P<value>[-+*/^().\w\s]+?)` (lazy, at least one char). -/
def matchValue (cs : List Char) : Option MatchGroups :=
  match cs with
  | c :: rest =>
    if valueClass c then
      lazyRunAux valueClass rest [c] (fun vchars cs2 => afterValue vchars cs2)
    else none
  | [] => none

/-- Continuation after the literal `convert` of the optional prefix:
`\s+` then the value group. -/
def afterConvertKw (cs1 : List Char) : Option MatchGroups :=
  match cs1 with
  | c :: rest =>
    if pyIsSpace c then
      greedyRunAux pyIsSpace rest [c] (fun _ cs2 => matchValue cs2)
    else none
  | [] => none

/-- Optional prefix `(?:convert\s+)?` (greedy: with the prefix first),
then the value group. -/
def matchStart (cs : List Char) : Option MatchGroups :=
  match (match litCI ['c', 'o', 'n', 'v', 'e', 'r', 't'] cs with
         | some cs1 => afterConvertKw cs1
         | none => none) with
  | some r => some r
  | none => matchValue cs

/-- `EXPR_PAT.match`: leading `^\s*`, then the rest of the pattern. -/
def EXPR_PAT_match (s : String) : Option MatchGroups :=
  greedyRunAux pyIsSpace s.data [] (fun _ cs => matchStart cs)

/-! ### Python expression AST, `safe_eval`, and value evaluation -/

/-- Binary operator nodes of the Python AST (`ast.Add`, …).  The bitwise and
shift operators exist as nodes but are outside `allowed_nodes`. -/
inductive PyBinOp where
  | add | sub | mult | div | pow | mod | floordiv
  | lshift | rshift | bitor | bitxor | bitand

/-- Unary operator nodes (`ast.USub`, `ast.UAdd`, `ast.Invert`, `ast.Not`). -/
inductive PyUnOp where
  | usub | uadd | invert | notOp

/-- Python expression AST nodes reachable in `mode='eval'`, covering the
node types `safe_eval` whitelists plus representative disallowed ones
(attribute access, subscripting, comparison, conditional and dict
displays). -/
inductive PyExpr where
  | num (q : ℚ)
  | strC (s : String)
  | boolC (b : Bool)
  | noneC
  | name (id : String)
  | binop (op : PyBinOp) (l r : PyExpr)
  | unaryop (op : PyUnOp) (e : PyExpr)
  | call (f : PyExpr) (args : List PyExpr)
  | tupleD (elts : List PyExpr)
  | listD (elts : List PyExpr)
  | attribute (obj : PyExpr) (attr : String)
  | subscript (obj idx : PyExpr)
  | compare (l r : PyExpr)
  | ifexp (c t e : PyExpr)
  | dictD (keys vals : List PyExpr)

/-- Operator nodes inside `allowed_nodes`: `Add, Sub, Mult, Div, Pow, Mod,
FloorDiv`. -/
def binOpAllowed : PyBinOp → Bool
  | .add | .sub | .mult | .div | .pow | .mod | .floordiv => true
  | _ => false

/-- Unary operator nodes inside `allowed_nodes`: `USub, UAdd`. -/
def unOpAllowed : PyUnOp → Bool
  | .usub | .uadd => true
  | _ => false

/-- The keys of `allowed_names` in `safe_eval`. -/
def allowedName (id : String) : Bool :=
  id == "pi" || id == "e" || id == "sqrt" || id == "sin" || id == "cos" ||
  id == "tan" || id == "abs" || id == "round"

mutual
/-- The `ast.walk` check of `safe_eval`: every node's type is in
`allowed_nodes` (note `Constant`, `Name`, `Tuple` and `List` are in the
tuple), and every `Call` has a `Name` function whose id is in
`allowed_names`. -/
def astOk : PyExpr → Bool
  | .num _ => true
  | .strC _ => true
  | .boolC _ => true
  | .noneC => true
  | .name _ => true
  | .binop op l r => binOpAllowed op && astOk l && astOk r
  | .unaryop op e => unOpAllowed op && astOk e
  | .call f args =>
    (match f with | .name id => allowedName id | _ => false) &&
      astOk f && astOkList args
  | .tupleD es => astOkList es
  | .listD es => astOkList es
  | .attribute _ _ => false
  | .subscript _ _ => false
  | .compare _ _ => false
  | .ifexp _ _ _ => false
  | .dictD _ _ => false

/-- `astOk` over a node list. -/
def astOkList : List PyExpr → Bool
  | [] => true
  | e :: es => astOk e && astOkList es
end

/-- Python runtime values produced by the evaluator. -/
inductive PyVal where
  | num (q : ℚ)
  | strV (s : String)
  | boolV (b : Bool)
  | noneV
  | tup (l : List PyVal)
  | listV (l : List PyVal)
  | func (id : String)

/-- Semantics of the opaque transcendental float functions; the embedding is
parametric in them (their values are irrational, and no claim depends on
them). `fpow` models float `**` at non-integer exponents. -/
structure MathSem where
  sqrt : ℚ → ℚ
  sin : ℚ → ℚ
  cos : ℚ → ℚ
  tan : ℚ → ℚ
  fpow : ℚ → ℚ → ℚ

/-- Degenerate instantiation of `MathSem`, used for concrete evaluations
that never reach the transcendental functions. -/
def sem0 : MathSem :=
  ⟨fun _ => 0, fun _ => 0, fun _ => 0, fun _ => 0, fun _ _ => 0⟩

/-- `math.radians`. -/
def pyRadians (x : ℚ) : ℚ := x * mathPi / 180

/-- Python `round` on a float: nearest integer, ties to even. -/
def roundHalfToEven (q : ℚ) : ℤ :=
  let f := q.floor
  let r := q - (f : ℚ)
  if r < 1 / 2 then f
  else if 1 / 2 < r then f + 1
  else if f % 2 = 0 then f else f + 1

/-- Integer power on `ℚ` (Python `**` with an integral float exponent). -/
def qzpow (x : ℚ) (n : ℤ) : ℚ :=
  if 0 ≤ n then x ^ n.toNat else (x ^ (-n).toNat)⁻¹

/-- Binary operator application on runtime values.  Number/number cases are
exact Python float semantics (idealized over `ℚ`); `+` also concatenates
strings, tuples and lists as Python does.  Other operand combinations raise
`TypeError`. -/
def applyBin (sem : MathSem) (op : PyBinOp) (a b : PyVal) :
    Except String PyVal :=
  match op, a, b with
  | .add, .num x, .num y => .ok (.num (x + y))
  | .add, .strV x, .strV y => .ok (.strV (x ++ y))
  | .add, .tup x, .tup y => .ok (.tup (x ++ y))
  | .add, .listV x, .listV y => .ok (.listV (x ++ y))
  | .sub, .num x, .num y => .ok (.num (x - y))
  | .mult, .num x, .num y => .ok (.num (x * y))
  | .div, .num x, .num y =>
    if y = 0 then .error "float division by zero" else .ok (.num (x / y))
  | .mod, .num x, .num y =>
    if y = 0 then .error "float modulo"
    else .ok (.num (x - y * ((x / y).floor : ℚ)))
  | .floordiv, .num x, .num y =>
    if y = 0 then .error "float floor division by zero"
    else .ok (.num ((x / y).floor : ℚ))
  | .pow, .num x, .num y =>
    if y.den = 1 then
      if x = 0 ∧ y < 0 then
        .error "0.0 cannot be raised to a negative power"
      else .ok (.num (qzpow x y.num))
    else .ok (.num (sem.fpow x y))
  | _, _, _ => .error "unsupported operand type(s)"

/-- Unary operator application on runtime values. -/
def applyUn (op : PyUnOp) (a : PyVal) : Except String PyVal :=
  match op, a with
  | .usub, .num x => .ok (.num (-x))
  | .uadd, .num x => .ok (.num x)
  | _, _ => .error "bad operand type for unary operator"

/-- Application of a whitelisted function value from `allowed_names`
(`sqrt, sin, cos, tan, abs, round`); trig interprets its argument in
degrees when `deg` is set, exactly as the lambdas in `safe_eval`. -/
def applyFn (sem : MathSem) (deg : Bool) (id : String) (args : List PyVal) :
    Except String PyVal :=
  match id, args with
  | "sqrt", [.num x] => .ok (.num (sem.sqrt x))
  | "sin", [.num x] => .ok (.num (sem.sin (if deg then pyRadians x else x)))
  | "cos", [.num x] => .ok (.num (sem.cos (if deg then pyRadians x else x)))
  | "tan", [.num x] => .ok (.num (sem.tan (if deg then pyRadians x else x)))
  | "abs", [.num x] => .ok (.num |x|)
  | "round", [.num x] => .ok (.num (roundHalfToEven x : ℚ))
  | _, _ => .error "invalid function application"

mutual
/-- `eval` of the compiled expression with globals `{'__builtins__': {}}`
and locals `allowed_names`:  `pi`/`e` are the float constants, the six
function names are function values, any other identifier raises
`NameError`. -/
def evalE (sem : MathSem) (deg : Bool) : PyExpr → Except String PyVal
  | .num q => .ok (.num q)
  | .strC s => .ok (.strV s)
  | .boolC b => .ok (.boolV b)
  | .noneC => .ok .noneV
  | .name id =>
    if id == "pi" then .ok (.num mathPi)
    else if id == "e" then .ok (.num mathE)
    else if id == "sqrt" || id == "sin" || id == "cos" || id == "tan" ||
        id == "abs" || id == "round" then .ok (.func id)
    else .error ("name " ++ pyQuote ++ id ++ pyQuote ++ " is not defined")
  | .binop op l r =>
    match evalE sem deg l with
    | .error e => .error e
    | .ok va =>
      match evalE sem deg r with
      | .error e => .error e
      | .ok vb => applyBin sem op va vb
  | .unaryop op e =>
    match evalE sem deg e with
    | .error msg => .error msg
    | .ok v => applyUn op v
  | .call f args =>
    match evalE sem deg f with
    | .error e => .error e
    | .ok vf =>
      match evalList sem deg args with
      | .error e => .error e
      | .ok vs =>
        match vf with
        | .func id => applyFn sem deg id vs
        | _ => .error "object is not callable"
  | .tupleD es =>
    match evalList sem deg es with
    | .error e => .error e
    | .ok vs => .ok (.tup vs)
  | .listD es =>
    match evalList sem deg es with
    | .error e => .error e
    | .ok vs => .ok (.listV vs)
  | .attribute _ _ => .error "unsupported node"
  | .subscript _ _ => .error "unsupported node"
  | .compare _ _ => .error "unsupported node"
  | .ifexp _ _ _ => .error "unsupported node"
  | .dictD _ _ => .error "unsupported node"

/-- Left-to-right evaluation of an expression list. -/
def evalList (sem : MathSem) (deg : Bool) :
    List PyExpr → Except String (List PyVal)
  | [] => .ok []
  | e :: es =>
    match evalE sem deg e with
    | .error msg => .error msg
    | .ok v =>
      match evalList sem deg es with
      | .error msg => .error msg
      | .ok vs => .ok (v :: vs)
end

/-- `safe_eval` on an already-parsed AST: the `ast.walk` whitelist check,
then evaluation.  (The two source messages for a rejected node type and a
rejected call are abstracted to one message.) -/
def safe_eval (sem : MathSem) (mode_deg : Bool) (e : PyExpr) :
    Except String PyVal :=
  if astOk e then evalE sem mode_deg e
  else .error "Disallowed expression element"

/-! ### Tokenizer and parser modelling `ast.parse(expr, mode='eval')`

The value text reaching `safe_eval` is drawn from the regex class
`[-+*/^().\w\s]` with `^` already rewritten to `**`, so the grammar model
covers exactly: numeric literals, identifiers (with `True`/`False`/`None`
as constants), `+ - * / // **`, unary sign, parentheses (with `()` an
empty tuple display), calls, and attribute access.  Unreachable lexical
corners (digit underscores, `inf`/`nan` identifiers are names here as in
Python) are noted where they arise. -/

/-- Expression tokens. -/
inductive PyTok where
  | num (q : ℚ)
  | ident (s : String)
  | sym (s : String)

/-- Span of leading decimal digits. -/
def takeDigits : List Char → List Char × List Char
  | [] => ([], [])
  | c :: cs =>
    if c.isDigit then
      let (d, r) := takeDigits cs
      (c :: d, r)
    else ([], c :: cs)

/-- Numeric value of a digit run. -/
def digitsVal (ds : List Char) : Nat :=
  ds.foldl (fun a c => a * 10 + (c.toNat - 48)) 0

/-- Powers of ten with an integer exponent. -/
def qpow10 (e : ℤ) : ℚ :=
  if 0 ≤ e then (10 : ℚ) ^ e.toNat else ((10 : ℚ) ^ (-e).toNat)⁻¹

/-- Lex one numeric literal: digits, optional fraction, optional exponent
(`e`/`E` with optional sign), as Python's tokenizer does.  (Digit-group
underscores are not modelled; no reachable input uses them.) -/
def lexNum (cs : List Char) : Option (ℚ × List Char) :=
  let (ip, cs1) := takeDigits cs
  let (fp, cs2) :=
    match cs1 with
    | '.' :: csf => takeDigits csf
    | _ => ([], cs1)
  if ip.isEmpty && fp.isEmpty then none
  else
    let (ex, cs3) : ℤ × List Char :=
      match cs2 with
      | e :: rest =>
        if e == 'e' || e == 'E' then
          match rest with
          | s :: rest2 =>
            if s == '+' || s == '-' then
              let (ed, r) := takeDigits rest2
              if ed.isEmpty then (0, cs2)
              else (if s == '-' then -(digitsVal ed : ℤ)
                    else (digitsVal ed : ℤ), r)
            else
              let (ed, r) := takeDigits rest
              if ed.isEmpty then (0, cs2) else ((digitsVal ed : ℤ), r)
          | [] => (0, cs2)
        else (0, cs2)
      | [] => (0, cs2)
    let mant : ℚ := (digitsVal ip : ℚ) + (digitsVal fp : ℚ) / (10 : ℚ) ^ fp.length
    some (mant * qpow10 ex, cs3)

/-- Span of identifier characters. -/
def takeWord : List Char → List Char × List Char
  | [] => ([], [])
  | c :: cs =>
    if pyIsWordChar c then
      let (d, r) := takeWord cs
      (c :: d, r)
    else ([], c :: cs)

/-- Tokenizer (fuel-indexed; the fuel is the input length, and every step
consumes at least one character). -/
def tokenizeAux : Nat → List Char → Option (List PyTok)
  | 0, [] => some []
  | 0, _ :: _ => none
  | _ + 1, [] => some []
  | fuel + 1, c :: cs =>
    if pyIsSpace c then tokenizeAux fuel cs
    else if c.isDigit ||
        (c == '.' && (match cs with | d :: _ => d.isDigit | [] => false)) then
      match lexNum (c :: cs) with
      | some (q, rest) => (tokenizeAux fuel rest).map (fun ts => .num q :: ts)
      | none => none
    else if c.isAlpha || c == '_' then
      match takeWord (c :: cs) with
      | (w, rest) => (tokenizeAux fuel rest).map (fun ts => .ident (String.mk w) :: ts)
    else if c == '*' then
      match cs with
      | '*' :: rest => (tokenizeAux fuel rest).map (fun ts => .sym "**" :: ts)
      | _ => (tokenizeAux fuel cs).map (fun ts => .sym "*" :: ts)
    else if c == '/' then
      match cs with
      | '/' :: rest => (tokenizeAux fuel rest).map (fun ts => .sym "//" :: ts)
      | _ => (tokenizeAux fuel cs).map (fun ts => .sym "/" :: ts)
    else if c == '+' || c == '-' || c == '(' || c == ')' || c == '.' then
      (tokenizeAux fuel cs).map (fun ts => .sym (String.singleton c) :: ts)
    else none

/-- Tokenize a whole string (any character outside the modelled token set is
a syntax error; `%` and friends cannot occur in a captured value text). -/
def tokenize (s : String) : Option (List PyTok) :=
  tokenizeAux (s.data.length + 1) s.data

mutual
/-- `expr`: additive level, left associative. -/
def parseAddE : Nat → List PyTok → Option (PyExpr × List PyTok)
  | 0, _ => none
  | f + 1, ts =>
    match parseMulE f ts with
    | some (e, ts') => parseAddTail f e ts'
    | none => none

/-- Tail of the additive level. -/
def parseAddTail : Nat → PyExpr → List PyTok → Option (PyExpr × List PyTok)
  | 0, _, _ => none
  | f + 1, acc, .sym "+" :: ts =>
    match parseMulE f ts with
    | some (r, ts2) => parseAddTail f (.binop .add acc r) ts2
    | none => none
  | f + 1, acc, .sym "-" :: ts =>
    match parseMulE f ts with
    | some (r, ts2) => parseAddTail f (.binop .sub acc r) ts2
    | none => none
  | _ + 1, acc, ts => some (acc, ts)

/-- `term`: multiplicative level (`* / //`), left associative. -/
def parseMulE : Nat → List PyTok → Option (PyExpr × List PyTok)
  | 0, _ => none
  | f + 1, ts =>
    match parseUnaryE f ts with
    | some (e, ts') => parseMulTail f e ts'
    | none => none

/-- Tail of the multiplicative level. -/
def parseMulTail : Nat → PyExpr → List PyTok → Option (PyExpr × List PyTok)
  | 0, _, _ => none
  | f + 1, acc, .sym "*" :: ts =>
    match parseUnaryE f ts with
    | some (r, ts2) => parseMulTail f (.binop .mult acc r) ts2
    | none => none
  | f + 1, acc, .sym "/" :: ts =>
    match parseUnaryE f ts with
    | some (r, ts2) => parseMulTail f (.binop .div acc r) ts2
    | none => none
  | f + 1, acc, .sym "//" :: ts =>
    match parseUnaryE f ts with
    | some (r, ts2) => parseMulTail f (.binop .floordiv acc r) ts2
    | none => none
  | _ + 1, acc, ts => some (acc, ts)

/-- `factor`: unary sign level. -/
def parseUnaryE : Nat → List PyTok → Option (PyExpr × List PyTok)
  | 0, _ => none
  | f + 1, .sym "+" :: ts =>
    match parseUnaryE f ts with
    | some (e, ts2) => some (.unaryop .uadd e, ts2)
    | none => none
  | f + 1, .sym "-" :: ts =>
    match parseUnaryE f ts with
    | some (e, ts2) => some (.unaryop .usub e, ts2)
    | none => none
  | f + 1, ts => parsePowerE f ts

/-- `power`: `atom_expr ['**' factor]`, right associative with the unary
level on the right (so `-2**2 = -(2**2)` and `2**-3` parse as in Python). -/
def parsePowerE : Nat → List PyTok → Option (PyExpr × List PyTok)
  | 0, _ => none
  | f + 1, ts =>
    match parseAtomTrail f ts with
    | some (e, .sym "**" :: ts') =>
      match parseUnaryE f ts' with
      | some (r, ts2) => some (.binop .pow e r, ts2)
      | none => none
    | some (e, ts') => some (e, ts')
    | none => none

/-- `atom_expr`: an atom followed by trailers. -/
def parseAtomTrail : Nat → List PyTok → Option (PyExpr × List PyTok)
  | 0, _ => none
  | f + 1, ts =>
    match parseAtomE f ts with
    | some (a, ts') => parseTrailers f a ts'
    | none => none

/-- Trailers: calls (`()` or one argument — the value character class has
no comma) and attribute access. -/
def parseTrailers : Nat → PyExpr → List PyTok → Option (PyExpr × List PyTok)
  | 0, _, _ => none
  | f + 1, a, .sym "(" :: .sym ")" :: ts' => parseTrailers f (.call a []) ts'
  | f + 1, a, .sym "(" :: ts' =>
    match parseAddE f ts' with
    | some (arg, .sym ")" :: ts2) => parseTrailers f (.call a [arg]) ts2
    | _ => none
  | f + 1, a, .sym "." :: .ident n :: ts' =>
    parseTrailers f (.attribute a n) ts'
  | _ + 1, a, ts => some (a, ts)

/-- Atoms: numbers, identifiers (`True`/`False`/`None` become constants, as
in the Python AST), `()` as an empty tuple display, and parenthesized
grouping. -/
def parseAtomE : Nat → List PyTok → Option (PyExpr × List PyTok)
  | 0, _ => none
  | _ + 1, .num q :: ts' => some (.num q, ts')
  | _ + 1, .ident s :: ts' =>
    if s == "True" then some (.boolC true, ts')
    else if s == "False" then some (.boolC false, ts')
    else if s == "None" then some (.noneC, ts')
    else some (.name s, ts')
  | _ + 1, .sym "(" :: .sym ")" :: ts' => some (.tupleD [], ts')
  | f + 1, .sym "(" :: ts' =>
    match parseAddE f ts' with
    | some (e, .sym ")" :: ts2) => some (e, ts2)
    | _ => none
  | _ + 1, _ => none
end

/-- `ast.parse(s, mode='eval')`: tokenize, parse a full expression,
require all tokens consumed.  The fuel bound covers the maximal grammar
nesting for the token count. -/
def pyParse (s : String) : Option PyExpr :=
  match tokenize s with
  | none => none
  | some toks =>
    match parseAddE (8 * (toks.length + 1)) toks with
    | some (e, []) => some e
    | _ => none

/-- `expr.replace('^', '**')` at the top of `safe_eval`. -/
def replaceCaret (s : String) : String :=
  String.mk (s.data.foldr
    (fun c acc => if c == '^' then '*' :: '*' :: acc else c :: acc) [])

/-- `safe_eval` on raw text: caret rewrite, parse (a parse failure is the
`SyntaxError` escaping `ast.parse`), whitelist check, evaluation. -/
def safe_eval_str (sem : MathSem) (mode_deg : Bool) (s : String) :
    Except String PyVal :=
  match pyParse (replaceCaret s) with
  | none => .error "invalid syntax"
  | some e => safe_eval sem mode_deg e

/-- Python `float(str)`: optional surrounding whitespace and sign, then a
decimal literal.  (`inf`/`nan` spellings and digit underscores are not
modelled; no reachable input uses them.) -/
def pyFloat (s : String) : Option ℚ :=
  let cs := (pyStrip s).data
  let (sgn, cs1) : ℚ × List Char :=
    match cs with
    | '+' :: r => (1, r)
    | '-' :: r => (-1, r)
    | _ => (1, cs)
  match lexNum cs1 with
  | some (q, []) => some (sgn * q)
  | _ => none

/-- Python `float(value)` on an evaluator result: numbers stay, booleans
become 0/1, strings re-parse as floats; tuples, lists, `None` and function
values raise `TypeError`. -/
def pyValToFloat : PyVal → Option ℚ
  | .num q => some q
  | .boolV b => some (if b then 1 else 0)
  | .strV s => pyFloat s
  | _ => none

/-- Category detection and conversion steps of `parse_and_convert` after
the value is known: `detect_category`, the two `get`s, then
`y = ut.from_base(uf.to_base(value))` with canonical names in the result. -/
def convertStep (value : ℚ) (u_from u_to : String) :
    Except String (ℚ × String × String × ℚ × String) :=
  match UnitRegistry.detect_category ureg u_from u_to with
  | none =>
    .error ("Cannot detect a common category for " ++ pyQuote ++ u_from ++
      pyQuote ++ " and " ++ pyQuote ++ u_to ++ pyQuote ++ ".")
  | some cat =>
    match UnitRegistry.get ureg cat u_from, UnitRegistry.get ureg cat u_to with
    | some uf, some ut =>
      .ok (value, uf.name, cat, ut.from_base (uf.to_base value), ut.name)
    | _, _ => .error "Unknown unit(s). Use --list to see categories/units."

/-- `parse_and_convert`: regex match, strip the three groups, evaluate the
value expression (`float(safe_eval(...))`, falling back to `float(val_expr)`
on any exception, whose own failure propagates), then `convertStep`. -/
def parse_and_convert (sem : MathSem) (s : String) (deg_mode : Bool) :
    Except String (ℚ × String × String × ℚ × String) :=
  match EXPR_PAT_match s with
  | none =>
    .error "Could not parse expression. Try like: 3 ft to cm  |  5 kg in lb"
  | some (v, f, t) =>
    let val_expr := pyStrip v
    let u_from := pyStrip f
    let u_to := pyStrip t
    match (match safe_eval_str sem deg_mode val_expr with
           | .ok pv => pyValToFloat pv
           | .error _ => none) with
    | some value => convertStep value u_from u_to
    | none =>
      match pyFloat val_expr with
      | some value => convertStep value u_from u_to
      | none =>
        .error ("could not convert string to float: " ++ pyQuote ++ val_expr
          ++ pyQuote)

/-! ### Output formatting and the batch loop -/

/-- Drop trailing zeros of a digit string. -/
def trimZeros (s : String) : String :=
  String.mk ((s.data.reverse.dropWhile (fun c => c == '0')).reverse)

/-- Auxiliary search: least `k` (starting from the given one) with
`1 ≤ q * 10^k`, fuel-bounded. -/
def smallKAux : Nat → ℚ → Nat → Nat
  | 0, _, k => k
  | f + 1, q, k =>
    if 1 ≤ q * qpow10 (k : ℤ) then k else smallKAux f q (k + 1)

/-- Decimal exponent of a positive rational: the largest `e` with
`10^e ≤ q`. -/
def decExp (q : ℚ) : ℤ :=
  if 1 ≤ q then ((toString q.floor.toNat).length : ℤ) - 1
  else -(smallKAux ((toString q.den).length + 2) q 1 : ℤ)

/-- Model of Python `format(x, 'g')` (the `%g` convention used by every
front end): 6 significant digits, trailing zeros trimmed, scientific
notation when the decimal exponent is below -4 or at least 6. -/
def fmtG (q : ℚ) : String :=
  if q = 0 then "0"
  else
    let sgn := if q < 0 then "-" else ""
    let aq := |q|
    let e0 := decExp aq
    let m0 := (roundHalfToEven (aq * qpow10 (5 - e0))).toNat
    let m := if m0 ≥ 1000000 then m0 / 10 else m0
    let e := if m0 ≥ 1000000 then e0 + 1 else e0
    let ds := toString m
    if e < -4 || e ≥ 6 then
      let fr := trimZeros (ds.drop 1)
      let mant := ds.take 1 ++ (if fr.isEmpty then "" else "." ++ fr)
      let ea := if e < 0 then (-e).toNat else e.toNat
      let es := if ea < 10 then "0" ++ toString ea else toString ea
      sgn ++ mant ++ "e" ++ (if e < 0 then "-" else "+") ++ es
    else if 0 ≤ e then
      let ip := ds.take (e.toNat + 1)
      let fr := trimZeros (ds.drop (e.toNat + 1))
      sgn ++ (if fr.isEmpty then ip else ip ++ "." ++ fr)
    else
      let zeros := String.mk (List.replicate ((-e).toNat - 1) '0')
      sgn ++ "0." ++ zeros ++ trimZeros ds

/-- Body of the `run_batch` loop for one non-blank line: the formatted
result `f"{v:g} {uf} = {y:g} {ut}   [{cat}]"`, or the substituted
`f"[error] {line}  →  {e}"` record. -/
def batchLine (sem : MathSem) (deg : Bool) (line : String) : String :=
  match parse_and_convert sem line deg with
  | .ok (v, uf, _cat, y, ut) =>
    fmtG v ++ " " ++ uf ++ " = " ++ fmtG y ++ " " ++ ut ++ "   [" ++ _cat ++ "]"
  | .error e => "[error] " ++ line ++ "  →  " ++ e

/-- `run_batch` over its input lines: skip lines that strip to empty,
append one record per remaining line, never aborting on an error. -/
def run_batch (sem : MathSem) (deg : Bool) (lines : List String) :
    List String :=
  lines.foldl
    (fun out line =>
      if (pyStrip line).isEmpty then out
      else out ++ [batchLine sem deg line]) []

/-! ### Spec-side predicates and concrete inputs used by the claims -/

mutual
/-- The spec's notion of a disallowed syntactic construct, as amended to
the code's actual filter: attribute access, subscripting, comparisons,
conditional and dict displays, bitwise/shift operators, `~`/`not`, and any
call whose callee is not a whitelisted function name.  (The code's filter
additionally admits tuple and list displays, string/bool/`None` constants
and bare identifiers, so those are not listed here.) -/
def hasForbidden : PyExpr → Bool
  | .num _ => false
  | .strC _ => false
  | .boolC _ => false
  | .noneC => false
  | .name _ => false
  | .binop op l r => !binOpAllowed op || hasForbidden l || hasForbidden r
  | .unaryop op e => !unOpAllowed op || hasForbidden e
  | .call f args =>
    (match f with | .name id => !allowedName id | _ => true) ||
      hasForbidden f || hasForbiddenList args
  | .tupleD es => hasForbiddenList es
  | .listD es => hasForbiddenList es
  | .attribute _ _ => true
  | .subscript _ _ => true
  | .compare _ _ => true
  | .ifexp _ _ _ => true
  | .dictD _ _ => true

/-- `hasForbidden` over a node list. -/
def hasForbiddenList : List PyExpr → Bool
  | [] => false
  | e :: es => hasForbidden e || hasForbiddenList es
end

/-- The injection attempt from the spec's test list:
`__import__('os') to m`. -/
def injInput : String :=
  "__import__(" ++ pyQuote ++ "os" ++ pyQuote ++ ") to m"

/-! ### Generic lemmas

Core `Rat` arithmetic is marked irreducible; re-enabling unfolding lets
concrete runs of the embedded program be checked by the kernel. -/

attribute [local semireducible] Rat.add Rat.sub Rat.mul Rat.inv Rat.ofScientific

set_option maxRecDepth 200000

/-- A successful `find?` splits its list at the first satisfying element. -/
theorem find_first_split {α : Type} (p : α → Bool) :
    ∀ (l : List α) (x : α), l.find? p = some x →
      ∃ pre post, l = pre ++ x :: post ∧ p x = true ∧
        ∀ y ∈ pre, p y = false := by
  intro l
  induction l with
  | nil => intro x h; simp at h
  | cons a t ih =>
    intro x h
    by_cases hp : p a = true
    · rw [List.find?_cons_of_pos _ hp] at h
      cases h
      exact ⟨[], t, rfl, hp, by simp⟩
    · rw [List.find?_cons_of_neg _ (by simpa using hp)] at h
      obtain ⟨pre, post, rfl, hx, hpre⟩ := ih x h
      refine ⟨a :: pre, post, rfl, hx, ?_⟩
      intro y hy
      rcases List.mem_cons.mp hy with rfl | hy'
      · simpa using hp
      · exact hpre y hy'

/-- Inversion for `lazyRunAux`: a successful lazy run consumed some prefix
of class characters and handed the extended accumulator to the
continuation. -/
theorem lazyRunAux_eq_some {R : Type} (p : Char → Bool) :
    ∀ (cs acc : List Char) (k : List Char → List Char → Option R) (r : R),
      lazyRunAux p cs acc k = some r →
      ∃ mid rest, mid.all p = true ∧ cs = mid ++ rest ∧
        k (acc.reverse ++ mid) rest = some r := by
  intro cs
  induction cs with
  | nil =>
    intro acc k r h
    rw [lazyRunAux] at h
    cases hk : k acc.reverse [] with
    | none => rw [hk] at h; simp at h
    | some r' =>
      rw [hk] at h
      simp only [Option.some.injEq] at h
      exact ⟨[], [], rfl, rfl, by simp [hk, h]⟩
  | cons c rest ih =>
    intro acc k r h
    rw [lazyRunAux] at h
    cases hk : k acc.reverse (c :: rest) with
    | some r' =>
      rw [hk] at h
      simp only [Option.some.injEq] at h
      exact ⟨[], c :: rest, rfl, rfl, by simp [hk, h]⟩
    | none =>
      rw [hk] at h
      simp only at h
      by_cases hp : p c = true
      · rw [if_pos hp] at h
        obtain ⟨mid, rest2, hall, hsplit, hcont⟩ := ih (c :: acc) k r h
        refine ⟨c :: mid, rest2, by simp [hp, hall], by simp [hsplit], ?_⟩
        simpa [List.append_assoc] using hcont
      · rw [if_neg hp] at h
        simp at h

/-- Inversion for `greedyRunAux`: a successful greedy run consumed some
prefix of class characters and handed the extended accumulator to the
continuation. -/
theorem greedyRunAux_eq_some {R : Type} (p : Char → Bool) :
    ∀ (cs acc : List Char) (k : List Char → List Char → Option R) (r : R),
      greedyRunAux p cs acc k = some r →
      ∃ mid rest, mid.all p = true ∧ cs = mid ++ rest ∧
        k (acc.reverse ++ mid) rest = some r := by
  intro cs
  induction cs with
  | nil =>
    intro acc k r h
    rw [greedyRunAux] at h
    exact ⟨[], [], rfl, rfl, by simpa using h⟩
  | cons c rest ih =>
    intro acc k r h
    rw [greedyRunAux] at h
    by_cases hp : p c = true
    · rw [if_pos hp] at h
      cases hg : greedyRunAux p rest (c :: acc) k with
      | some r' =>
        rw [hg] at h
        simp only [Option.some.injEq] at h
        obtain ⟨mid, rest2, hall, hsplit, hcont⟩ := ih (c :: acc) k r (h ▸ hg)
        refine ⟨c :: mid, rest2, by simp [hp, hall], by simp [hsplit], ?_⟩
        simpa [List.append_assoc] using hcont
      | none =>
        rw [hg] at h
        exact ⟨[], c :: rest, rfl, rfl, by simpa using h⟩
    · rw [if_neg hp] at h
      exact ⟨[], c :: rest, rfl, rfl, by simpa using h⟩

/-- Shape of a successful `matchEnd`: the result is built from the three
captured groups. -/
theorem matchEnd_eq_some :
    ∀ (v f t cs : List Char) (r : MatchGroups), matchEnd v f t cs = some r →
      r = (String.mk v, String.mk f, String.mk t) := by
  intro v f t cs r h
  unfold matchEnd at h
  obtain ⟨mid, rest, _, _, hk⟩ := greedyRunAux_eq_some pyIsSpace cs [] _ r h
  by_cases hrest : (rest.isEmpty || rest == ['\n']) = true
  · rw [if_pos hrest] at hk
    exact (Option.some.inj hk).symm
  · rw [if_neg hrest] at hk
    simp at hk

/-- Shape of a successful `matchTo`: value and from groups pass through. -/
theorem matchTo_eq_some :
    ∀ (v f cs : List Char) (r : MatchGroups), matchTo v f cs = some r →
      ∃ t, r = (String.mk v, String.mk f, String.mk t) := by
  intro v f cs r h
  cases cs with
  | nil => simp [matchTo] at h
  | cons c rest =>
    simp only [matchTo] at h
    by_cases hc : (c != '\n') = true
    · rw [if_pos hc] at h
      obtain ⟨mid, rest2, _, _, hk⟩ := lazyRunAux_eq_some _ rest [c] _ r h
      exact ⟨c :: mid, matchEnd_eq_some v f (c :: mid) rest2 r (by simpa using hk)⟩
    · rw [if_neg hc] at h
      simp at h

/-- Shape of a successful `afterSep`. -/
theorem afterSep_eq_some :
    ∀ (v f cs : List Char) (r : MatchGroups), afterSep v f cs = some r →
      ∃ t, r = (String.mk v, String.mk f, String.mk t) := by
  intro v f cs r h
  cases cs with
  | nil => simp [afterSep] at h
  | cons c rest =>
    simp only [afterSep] at h
    by_cases hc : pyIsSpace c = true
    · rw [if_pos hc] at h
      obtain ⟨mid, rest2, _, _, hk⟩ := greedyRunAux_eq_some pyIsSpace rest [c] _ r h
      exact matchTo_eq_some v f rest2 r hk
    · rw [if_neg hc] at h
      simp at h

/-- Shape of a successful `matchSep`. -/
theorem matchSep_eq_some :
    ∀ (v f cs : List Char) (r : MatchGroups), matchSep v f cs = some r →
      ∃ t, r = (String.mk v, String.mk f, String.mk t) := by
  intro v f cs r h
  cases cs with
  | nil => simp [matchSep] at h
  | cons c rest =>
    simp only [matchSep] at h
    by_cases hc : pyIsSpace c = true
    · rw [if_pos hc] at h
      obtain ⟨mid, rest2, _, _, hk⟩ := greedyRunAux_eq_some pyIsSpace rest [c] _ r h
      cases h1 : litCI ['t', 'o'] rest2 with
      | some cs3 =>
        simp only [h1] at hk
        cases h2 : afterSep v f cs3 with
        | some r' =>
          simp only [h2] at hk
          obtain ⟨t, ht⟩ := afterSep_eq_some v f cs3 r' h2
          exact ⟨t, by simpa [ht] using (Option.some.inj hk).symm⟩
        | none =>
          simp only [h2] at hk
          cases h3 : litCI ['i', 'n'] rest2 with
          | some cs4 =>
            simp only [h3] at hk
            exact afterSep_eq_some v f cs4 r hk
          | none => simp [h3] at hk
      | none =>
        simp only [h1] at hk
        cases h3 : litCI ['i', 'n'] rest2 with
        | some cs4 =>
          simp only [h3] at hk
          exact afterSep_eq_some v f cs4 r hk
        | none => simp [h3] at hk
    · rw [if_neg hc] at h
      simp at h

/-- Shape of a successful `matchFrom`: the from-group is a non-digit
non-space character followed by non-digits — it contains no digit. -/
theorem matchFrom_eq_some :
    ∀ (v cs : List Char) (r : MatchGroups), matchFrom v cs = some r →
      ∃ f t, r = (String.mk v, String.mk f, String.mk t) ∧
        f.all (fun c => !c.isDigit) = true := by
  intro v cs r h
  cases cs with
  | nil => simp [matchFrom] at h
  | cons c rest =>
    simp only [matchFrom] at h
    by_cases hc : (!c.isDigit && !pyIsSpace c) = true
    · rw [if_pos hc] at h
      obtain ⟨mid, rest2, hall, _, hk⟩ :=
        lazyRunAux_eq_some (fun ch => !ch.isDigit) rest [c] _ r h
      obtain ⟨t, ht⟩ := matchSep_eq_some v (c :: mid) rest2 r (by simpa using hk)
      refine ⟨c :: mid, t, ht, ?_⟩
      have hc' := hc
      simp only [Bool.and_eq_true] at hc'
      simp only [List.all_cons, hc'.1, Bool.true_and]
      simpa using hall
    · rw [if_neg hc] at h
      simp at h

/-- Shape of a successful `afterValue`. -/
theorem afterValue_eq_some :
    ∀ (v cs : List Char) (r : MatchGroups), afterValue v cs = some r →
      ∃ f t, r = (String.mk v, String.mk f, String.mk t) ∧
        f.all (fun c => !c.isDigit) = true := by
  intro v cs r h
  unfold afterValue at h
  obtain ⟨mid, rest, _, _, hk⟩ := greedyRunAux_eq_some pyIsSpace cs [] _ r h
  exact matchFrom_eq_some v rest r hk

/-- Shape of a successful `matchValue`. -/
theorem matchValue_eq_some :
    ∀ (cs : List Char) (r : MatchGroups), matchValue cs = some r →
      ∃ v f t, r = (String.mk v, String.mk f, String.mk t) ∧
        f.all (fun c => !c.isDigit) = true := by
  intro cs r h
  cases cs with
  | nil => simp [matchValue] at h
  | cons c rest =>
    simp only [matchValue] at h
    by_cases hc : valueClass c = true
    · rw [if_pos hc] at h
      obtain ⟨mid, rest2, _, _, hk⟩ := lazyRunAux_eq_some valueClass rest [c] _ r h
      obtain ⟨f, t, ht, hf⟩ := afterValue_eq_some (c :: mid) rest2 r (by simpa using hk)
      exact ⟨c :: mid, f, t, ht, hf⟩
    · rw [if_neg hc] at h
      simp at h

/-- Shape of a successful `matchStart`. -/
theorem matchStart_eq_some :
    ∀ (cs : List Char) (r : MatchGroups), matchStart cs = some r →
      ∃ v f t, r = (String.mk v, String.mk f, String.mk t) ∧
        f.all (fun c => !c.isDigit) = true := by
  intro cs r h
  unfold matchStart at h
  cases h1 : litCI ['c', 'o', 'n', 'v', 'e', 'r', 't'] cs with
  | some cs1 =>
    simp only [h1] at h
    cases h2 : afterConvertKw cs1 with
    | some r' =>
      simp only [h2] at h
      obtain rfl : r' = r := Option.some.inj h
      cases cs1 with
      | nil => simp [afterConvertKw] at h2
      | cons c rest =>
        simp only [afterConvertKw] at h2
        by_cases hc : pyIsSpace c = true
        · rw [if_pos hc] at h2
          obtain ⟨mid, rest2, _, _, hk⟩ :=
            greedyRunAux_eq_some pyIsSpace rest [c] _ r' h2
          exact matchValue_eq_some rest2 r' hk
        · rw [if_neg hc] at h2
          simp at h2
    | none =>
      simp only [h2] at h
      exact matchValue_eq_some cs r h
  | none =>
    simp only [h1] at h
    exact matchValue_eq_some cs r h

/-- The from-group of any successful `EXPR_PAT` match contains no decimal
digit — the capture `[^\d\s][^0-9]*?` cannot contain one. -/
theorem EXPR_PAT_from_no_digit :
    ∀ (s : String) (g : MatchGroups), EXPR_PAT_match s = some g →
      g.2.1.data.all (fun c => !c.isDigit) = true := by
  intro s g h
  unfold EXPR_PAT_match at h
  obtain ⟨mid, rest, _, _, hk⟩ := greedyRunAux_eq_some pyIsSpace s.data [] _ g h
  obtain ⟨v, f, t, ht, hf⟩ := matchStart_eq_some rest g hk
  rw [ht]
  simpa using hf

mutual
/-- The code's walk filter accepts exactly the expressions with no
forbidden construct: `astOk` is the complement of the spec-side
`hasForbidden`. -/
theorem astOk_eq_not_forbidden : (e : PyExpr) → astOk e = !hasForbidden e
  | .num _ => rfl
  | .strC _ => rfl
  | .boolC _ => rfl
  | .noneC => rfl
  | .name _ => rfl
  | .binop op l r => by
    rw [astOk, hasForbidden, astOk_eq_not_forbidden l, astOk_eq_not_forbidden r]
    cases binOpAllowed op <;> cases hasForbidden l <;> cases hasForbidden r <;> rfl
  | .unaryop op e => by
    rw [astOk, hasForbidden, astOk_eq_not_forbidden e]
    cases unOpAllowed op <;> cases hasForbidden e <;> rfl
  | .call f args => by
    cases f
    case name id =>
      simp only [astOk, hasForbidden, astOkList_eq_not_forbiddenList args]
      cases allowedName id <;> cases hasForbiddenList args <;> rfl
    all_goals rfl
  | .tupleD es => by
    rw [astOk, hasForbidden, astOkList_eq_not_forbiddenList es]
  | .listD es => by
    rw [astOk, hasForbidden, astOkList_eq_not_forbiddenList es]
  | .attribute _ _ => rfl
  | .subscript _ _ => rfl
  | .compare _ _ => rfl
  | .ifexp _ _ _ => rfl
  | .dictD _ _ => rfl

/-- List version of `astOk_eq_not_forbidden`. -/
theorem astOkList_eq_not_forbiddenList :
    (es : List PyExpr) → astOkList es = !hasForbiddenList es
  | [] => rfl
  | e :: es => by
    rw [astOkList, hasForbiddenList, astOk_eq_not_forbidden e,
      astOkList_eq_not_forbiddenList es]
    cases hasForbidden e <;> cases hasForbiddenList es <;> rfl
end

/-- Inversion for a successful `convertStep`: category detection and both
lookups succeeded, and the result routes through the base unit with
canonical names. -/
theorem convertStep_eq_ok :
    ∀ (value : ℚ) (uf ut : String) (r : ℚ × String × String × ℚ × String),
      convertStep value uf ut = .ok r →
      ∃ cat u1 u2,
        UnitRegistry.detect_category ureg uf ut = some cat ∧
        UnitRegistry.get ureg cat uf = some u1 ∧
        UnitRegistry.get ureg cat ut = some u2 ∧
        r = (value, u1.name, cat, u2.from_base (u1.to_base value), u2.name) := by
  intro value uf ut r h
  unfold convertStep at h
  cases hd : UnitRegistry.detect_category ureg uf ut with
  | none => simp [hd] at h
  | some cat =>
    simp only [hd] at h
    cases h1 : UnitRegistry.get ureg cat uf with
    | none => simp [h1] at h
    | some u1 =>
      cases h2 : UnitRegistry.get ureg cat ut with
      | none => simp [h1, h2] at h
      | some u2 =>
        simp only [h1, h2] at h
        exact ⟨cat, u1, u2, rfl, h1, h2, (Except.ok.inj h).symm⟩

/-- Inversion for a successful `parse_and_convert`: the regex matched, a
shared category was detected for the stripped unit texts, both units
resolved, and the output is `from_base (to_base value)` under the
canonical names. -/
theorem parse_and_convert_eq_ok :
    ∀ (sem : MathSem) (deg : Bool) (s : String)
      (r : ℚ × String × String × ℚ × String),
      parse_and_convert sem s deg = .ok r →
      ∃ v f t, EXPR_PAT_match s = some (v, f, t) ∧
        ∃ cat u1 u2,
          UnitRegistry.detect_category ureg (pyStrip f) (pyStrip t) = some cat ∧
          UnitRegistry.get ureg cat (pyStrip f) = some u1 ∧
          UnitRegistry.get ureg cat (pyStrip t) = some u2 ∧
          r = (r.1, u1.name, cat, u2.from_base (u1.to_base r.1), u2.name) := by
  intro sem deg s r h
  unfold parse_and_convert at h
  cases hm : EXPR_PAT_match s with
  | none => simp [hm] at h
  | some g =>
    obtain ⟨v, f, t⟩ := g
    simp only [hm] at h
    cases hv : (match safe_eval_str sem deg (pyStrip v) with
                | .ok pv => pyValToFloat pv
                | .error _ => none) with
    | some value =>
      simp only [hv] at h
      obtain ⟨cat, u1, u2, hd, h1, h2, hr⟩ := convertStep_eq_ok value _ _ r h
      exact ⟨v, f, t, rfl, cat, u1, u2, hd, h1, h2, by rw [hr]⟩
    | none =>
      simp only [hv] at h
      cases hf : pyFloat (pyStrip v) with
      | none => simp [hf] at h
      | some value =>
        simp only [hf] at h
        obtain ⟨cat, u1, u2, hd, h1, h2, hr⟩ := convertStep_eq_ok value _ _ r h
        exact ⟨v, f, t, rfl, cat, u1, u2, hd, h1, h2, by rw [hr]⟩

/-- The batch loop is the per-line record map over the non-blank lines. -/
theorem run_batch_eq_filter_map (sem : MathSem) (deg : Bool)
    (lines : List String) :
    run_batch sem deg lines =
      (lines.filter (fun l => !(pyStrip l).isEmpty)).map (batchLine sem deg) := by
  have aux : ∀ (ls : List String) (acc : List String),
      ls.foldl
        (fun out line =>
          if (pyStrip line).isEmpty then out
          else out ++ [batchLine sem deg line]) acc
        = acc ++ (ls.filter (fun l => !(pyStrip l).isEmpty)).map
            (batchLine sem deg) := by
    intro ls
    induction ls with
    | nil => intro acc; simp
    | cons l t ih =>
      intro acc
      by_cases h : (pyStrip l).isEmpty
      · simp [List.foldl_cons, List.filter_cons, h, ih]
      · simp [List.foldl_cons, List.filter_cons, h, ih]
  simpa [run_batch] using aux lines []

/-! ### The claims -/

/-- C1: the claim says registry lookup by canonical name returns the unit
registered under that name with its seed factor — in particular that
`get('energy','cal')` is the calorie unit (factor 4.184) and
`get('data','B')` the identity byte base unit.  Evaluating the code at
those inputs shows the case-folded alias `'Cal'` of `kcal` overwrote the
key `'cal'` (so the lookup yields the kcal unit, factor 4184, and
`1 cal to J` converts to 4184), and the alias `'b'` of `bit` overwrote the
key `'b'` of the base unit `B` (so the lookup yields the bit unit, factor
1/8): the code contradicts the seed table it was built from. -/
theorem C1_seed_alias_clobbered :
    (UnitRegistry.get ureg "energy" "cal").map Unit'.name = some "kcal" ∧
    (UnitRegistry.get ureg "energy" "cal").map (fun u => u.to_base 1) =
      some 4184 ∧
    (∀ sem : MathSem, parse_and_convert sem "1 cal to J" false =
      .ok (1, "kcal", "energy", 4184, "J")) ∧
    (UnitRegistry.get ureg "data" "B").map Unit'.name = some "bit" ∧
    (UnitRegistry.get ureg "data" "B").map (fun u => u.to_base 1) =
      some (1 / 8) :=
  ⟨rfl, rfl, fun _ => rfl, rfl, rfl⟩

/-- C2 (counterexample): the claim says any construct besides the numeric
literals / operators / whitelisted calls / constants — for example a tuple
or list display — makes the restricted evaluator fail closed with
`EvalError`.  But `ast.Tuple` and `ast.List` are in `allowed_nodes`: a
tuple display of numbers and a list display both evaluate successfully,
as does the empty tuple display `()` fed through the string interface. -/
theorem C2_tuple_display_not_rejected :
    safe_eval sem0 false (.tupleD [.num 1, .num 2]) =
      .ok (.tup [.num 1, .num 2]) ∧
    safe_eval sem0 false (.listD [.num 1, .num 2]) =
      .ok (.listV [.num 1, .num 2]) ∧
    safe_eval_str sem0 false "()" = .ok (.tup []) :=
  ⟨rfl, rfl, rfl⟩

/-- C2 (amended): for every expression containing a construct the code's
filter actually excludes — attribute access, subscripting, comparison,
conditional or dict displays, bitwise/shift operators, `~`/`not`, or a
call to anything but the whitelisted names — `safe_eval` fails closed
before evaluating anything; tuple and list displays, string/bool/`None`
constants and bare identifiers pass the node filter instead (bare
non-whitelisted identifiers then fail at evaluation with a `NameError`). -/
theorem C2_amended_fail_closed :
    ∀ (sem : MathSem) (deg : Bool) (e : PyExpr),
      hasForbidden e = true →
      safe_eval sem deg e = .error "Disallowed expression element" := by
  intro sem deg e h
  unfold safe_eval
  rw [astOk_eq_not_forbidden e, h]
  rfl

/-- C2 (witness). -/
theorem C2_amended_fail_closed_witness :
    safe_eval sem0 false (.attribute (.num 1) "x") =
      .error "Disallowed expression element" :=
  C2_amended_fail_closed sem0 false (.attribute (.num 1) "x") rfl

/-- C3: `parse_and_convert` on `__import__('os') to m` fails with an
evaluation error and never executes the injected code: the lazy value
group captures only `_`, whose evaluation raises `NameError`, the float
fallback on `_` fails, and the error propagates.  In general, whenever the
captured value text parses to an AST the whitelist rejects and the raw
text is not a plain float literal, `parse_and_convert` fails with an
error. -/
theorem C3_injection_fails_closed :
    (∀ sem : MathSem,
      EXPR_PAT_match injInput =
        some ("_", "_import__(" ++ pyQuote ++ "os" ++ pyQuote ++ ")", "m") ∧
      parse_and_convert sem injInput false =
        .error ("could not convert string to float: " ++ pyQuote ++ "_" ++
          pyQuote)) ∧
    (∀ (sem : MathSem) (deg : Bool) (s v f t : String) (ex : PyExpr),
      EXPR_PAT_match s = some (v, f, t) →
      pyParse (replaceCaret (pyStrip v)) = some ex →
      astOk ex = false →
      pyFloat (pyStrip v) = none →
      ∃ msg, parse_and_convert sem s deg = .error msg) := by
  refine ⟨fun sem => ⟨rfl, rfl⟩, ?_⟩
  intro sem deg s v f t ex hm hp ha hf
  have hse : safe_eval_str sem deg (pyStrip v) =
      .error "Disallowed expression element" := by
    unfold safe_eval_str
    simp only [hp]
    unfold safe_eval
    rw [ha]
    rfl
  unfold parse_and_convert
  simp only [hm, hse, hf]
  exact ⟨_, rfl⟩

/-- C3 (witness): a concrete input whose value group parses to a
disallowed attribute access and is not a float literal. -/
theorem C3_injection_fails_closed_witness :
    ∃ msg, parse_and_convert sem0 "pi.x3 m to cm" false = .error msg :=
  C3_injection_fails_closed.2 sem0 false "pi.x3 m to cm" "pi.x3" "m" "cm"
    (.attribute (.name "pi") "x3") rfl rfl rfl rfl

/-- C4 (counterexample): the claim says lines starting with `#` contribute
no output record, but `run_batch` only skips blank lines: a `# note` line
is fed to the converter, fails to parse, and contributes an `[error]`
record — one record where the claim requires none. -/
theorem C4_hash_line_contributes_record :
    run_batch sem0 false ["# note"] =
      ["[error] # note  →  Could not parse expression. Try like: 3 ft to cm  |  5 kg in lb"] ∧
    (run_batch sem0 false ["# note"]).length = 1 :=
  ⟨rfl, rfl⟩

/-- C4 (amended): batch processing produces exactly one output record per
line that is not blank, in the original input order; a failing line is
replaced in its position by an `[error]`-prefixed record and does not
abort processing of subsequent lines; blank lines contribute no record —
but lines starting with `#` are processed like any other (and, failing to
parse, contribute `[error]` records). -/
theorem C4_batch_one_record_per_nonblank_line :
    (∀ (sem : MathSem) (deg : Bool) (lines : List String),
      run_batch sem deg lines =
        (lines.filter (fun l => !(pyStrip l).isEmpty)).map
          (batchLine sem deg)) ∧
    (∀ (sem : MathSem) (deg : Bool) (line e : String),
      parse_and_convert sem line deg = .error e →
      batchLine sem deg line = "[error] " ++ line ++ "  →  " ++ e) ∧
    run_batch sem0 false ["3 ft to cm", "garbage", "5 kg in lb"] =
      ["3 ft = 91.44 cm   [length]",
       "[error] garbage  →  Could not parse expression. Try like: 3 ft to cm  |  5 kg in lb",
       "5 kg = 11.0231 lb   [mass]"] := by
  refine ⟨run_batch_eq_filter_map, ?_, rfl⟩
  intro sem deg line e h
  unfold batchLine
  rw [h]

/-- C4 (witness): the error-record equation at a concrete failing line. -/
theorem C4_batch_one_record_per_nonblank_line_witness :
    batchLine sem0 false "garbage" =
      "[error] " ++ "garbage" ++ "  →  " ++
        "Could not parse expression. Try like: 3 ft to cm  |  5 kg in lb" :=
  C4_batch_one_record_per_nonblank_line.2.1 sem0 false "garbage"
    "Could not parse expression. Try like: 3 ft to cm  |  5 kg in lb" rfl

/-- C5: `detect_category` returns the first category, in the registry's
registration order, in which both case-folded alias strings resolve, and
`none` exactly when no category contains both; in the latter case
`parse_and_convert` fails with the unit error — in particular
`1 m to kg` fails with the no-common-category message. -/
theorem C5_detect_first_category :
    (∀ (a b cat : String), UnitRegistry.detect_category ureg a b = some cat →
      ∃ pre units post, ureg = pre ++ (cat, units) :: post ∧
        catHasBoth units (pyLower a) (pyLower b) = true ∧
        ∀ p ∈ pre, catHasBoth p.2 (pyLower a) (pyLower b) = false) ∧
    (∀ (a b : String), UnitRegistry.detect_category ureg a b = none →
      ∀ p ∈ ureg, catHasBoth p.2 (pyLower a) (pyLower b) = false) ∧
    (∀ (sem : MathSem) (deg : Bool), parse_and_convert sem "1 m to kg" deg =
      .error ("Cannot detect a common category for " ++ pyQuote ++ "m" ++
        pyQuote ++ " and " ++ pyQuote ++ "kg" ++ pyQuote ++ ".")) := by
  refine ⟨?_, ?_, fun sem deg => rfl⟩
  · intro a b cat h
    unfold UnitRegistry.detect_category at h
    cases hf : ureg.find? (fun p => catHasBoth p.2 (pyLower a) (pyLower b)) with
    | none => rw [hf] at h; simp at h
    | some pr =>
      rw [hf] at h
      obtain ⟨c0, units⟩ := pr
      simp only [Option.map] at h
      obtain rfl : c0 = cat := Option.some.inj h
      obtain ⟨pre, post, hsplit, hx, hpre⟩ := find_first_split _ ureg _ hf
      exact ⟨pre, units, post, hsplit, hx, hpre⟩
  · intro a b h p hp
    unfold UnitRegistry.detect_category at h
    cases hf : ureg.find? (fun p => catHasBoth p.2 (pyLower a) (pyLower b)) with
    | some pr => rw [hf] at h; simp at h
    | none =>
      have := List.find?_eq_none.mp hf p hp
      simpa using this

/-- C5 (witness): `ft`/`cm` resolve first in `length`. -/
theorem C5_detect_first_category_witness :
    ∃ pre units post, ureg = pre ++ ("length", units) :: post ∧
      catHasBoth units (pyLower "ft") (pyLower "cm") = true ∧
      ∀ p ∈ pre, catHasBoth p.2 (pyLower "ft") (pyLower "cm") = false :=
  C5_detect_first_category.1 "ft" "cm" "length" rfl

/-- C6: every successful `parse_and_convert` routes the value through the
category base — the output is `toUnit.from_base (fromUnit.to_base value)`
— and reports the canonical names of the resolved units, not the typed
alias text; in particular `3 ft to cm` yields value 3, fromUnit `ft`,
category `length`, result 91.44, toUnit `cm`. -/
theorem C6_roundtrip_canonical_names :
    (∀ (sem : MathSem) (deg : Bool) (s : String)
      (r : ℚ × String × String × ℚ × String),
      parse_and_convert sem s deg = .ok r →
      ∃ v f t, EXPR_PAT_match s = some (v, f, t) ∧
        ∃ cat u1 u2,
          UnitRegistry.detect_category ureg (pyStrip f) (pyStrip t) =
            some cat ∧
          UnitRegistry.get ureg cat (pyStrip f) = some u1 ∧
          UnitRegistry.get ureg cat (pyStrip t) = some u2 ∧
          r = (r.1, u1.name, cat, u2.from_base (u1.to_base r.1), u2.name)) ∧
    parse_and_convert sem0 "3 ft to cm" false =
      .ok (3, "ft", "length", 91.44, "cm") :=
  ⟨parse_and_convert_eq_ok, rfl⟩

/-- C6 (witness): the inversion applied at `3 ft to cm`. -/
theorem C6_roundtrip_canonical_names_witness :
    ∃ v f t, EXPR_PAT_match "3 ft to cm" = some (v, f, t) ∧
      ∃ cat u1 u2,
        UnitRegistry.detect_category ureg (pyStrip f) (pyStrip t) = some cat ∧
        UnitRegistry.get ureg cat (pyStrip f) = some u1 ∧
        UnitRegistry.get ureg cat (pyStrip t) = some u2 ∧
        ((3 : ℚ), "ft", "length", (91.44 : ℚ), "cm") =
          (3, u1.name, cat, u2.from_base (u1.to_base 3), u2.name) :=
  C6_roundtrip_canonical_names.1 sem0 false "3 ft to cm"
    (3, "ft", "length", 91.44, "cm") C6_roundtrip_canonical_names.2

/-- C7: a unit registered in linear mode with factor `f` and offset `b`
(defaulting to 0) gets `to_base x = (x - b) * f` and
`from_base x = x / f + b` — the source's two `b == 0` branches agree with
the single linear formula. -/
theorem C7_linear_mode_transforms :
    ∀ (cat nm : String) (f b x : ℚ),
      ∃ u,
        UnitRegistry.get (UnitRegistry.add [] cat nm (some f) b none none [])
          cat nm = some u ∧
        u.to_base x = (x - b) * f ∧ u.from_base x = x / f + b ∧
        u.to_base = linear_to_base f b ∧ u.from_base = linear_from_base f b := by
  intro cat nm f b x
  refine ⟨⟨nm, linear_to_base f b, linear_from_base f b, [nm]⟩,
    ?_, ?_, ?_, rfl, rfl⟩
  · simp [UnitRegistry.add, UnitRegistry.get, dictInsert, dictFind,
      pyDedup, pyDedupAux, List.find?]
  · by_cases hb : b = 0
    · simp [linear_to_base, hb]
    · rw [show Unit'.to_base ⟨nm, linear_to_base f b, linear_from_base f b,
        [nm]⟩ = linear_to_base f b from rfl, linear_to_base, if_neg hb]
      ring
  · rfl

/-- C8: `32 F to C` converts to exactly 0 in category `temperature`, via
the registered custom transforms `F_to_K x = (x - 32) * 5/9 + 273.15` and
`K_to_C x = x - 273.15`. -/
theorem C8_fahrenheit_to_celsius :
    (∀ sem : MathSem, parse_and_convert sem "32 F to C" false =
      .ok (32, "F", "temperature", 0, "C")) ∧
    (∀ x : ℚ, F_to_K x = (x - 32) * 5 / 9 + 273.15 ∧ K_to_C x = x - 273.15) ∧
    (∀ x : ℚ,
      (UnitRegistry.get ureg "temperature" "F").map (fun u => u.to_base x) =
        some (F_to_K x) ∧
      (UnitRegistry.get ureg "temperature" "C").map (fun u => u.from_base x) =
        some (K_to_C x)) ∧
    K_to_C (F_to_K 32) = 0 :=
  ⟨fun _ => rfl, fun _ => ⟨rfl, rfl⟩, fun _ => ⟨rfl, rfl⟩, rfl⟩

/-- C9 (counterexample): the claim says conversion yields identical
results under any registered alias spelling of the same units.  But
`lb/in^2` is a registered alias of `psi` (same unit), and while
`1 psi to Pa` converts, `1 lb/in^2 to Pa` fails with a parse error: the
regex from-group `[^\d\s][^0-9]*?` cannot contain the digit `2`. -/
theorem C9_digit_alias_not_invariant :
    UnitRegistry.get ureg "pressure" "lb/in^2" =
      UnitRegistry.get ureg "pressure" "psi" ∧
    (UnitRegistry.get ureg "pressure" "psi").map Unit'.name = some "psi" ∧
    parse_and_convert sem0 "1 psi to Pa" false =
      .ok (1, "psi", "pressure", 6894.757293168, "Pa") ∧
    parse_and_convert sem0 "1 lb/in^2 to Pa" false =
      .error "Could not parse expression. Try like: 3 ft to cm  |  5 kg in lb" :=
  ⟨rfl, rfl, rfl, rfl⟩

/-- C9 (amended): conversion is invariant under case variation — registry
lookups and category detection depend only on the case-folded texts, and
`3 FT to CM` equals `3 ft to cm` — and under the quoted alias pair
(`1 kilometer to m` equals `1 km to m`); full alias invariance fails only
for aliases the parser cannot capture as a source unit (those containing
digits, see the counterexample). -/
theorem C9_case_and_alias_invariance :
    (∀ (cat a b : String), pyLower a = pyLower b →
      UnitRegistry.get ureg cat a = UnitRegistry.get ureg cat b) ∧
    (∀ (a a' b b' : String), pyLower a = pyLower a' → pyLower b = pyLower b' →
      UnitRegistry.detect_category ureg a b =
        UnitRegistry.detect_category ureg a' b') ∧
    parse_and_convert sem0 "3 FT to CM" false =
      parse_and_convert sem0 "3 ft to cm" false ∧
    parse_and_convert sem0 "1 kilometer to m" false =
      parse_and_convert sem0 "1 km to m" false := by
  refine ⟨?_, ?_, rfl, rfl⟩
  · intro cat a b h
    unfold UnitRegistry.get
    rw [h]
  · intro a a' b b' h1 h2
    unfold UnitRegistry.detect_category
    rw [h1, h2]

/-- C9 (witness): case-insensitive lookup at a concrete case variant. -/
theorem C9_case_and_alias_invariance_witness :
    UnitRegistry.get ureg "length" "FT" = UnitRegistry.get ureg "length" "ft" :=
  C9_case_and_alias_invariance.1 "length" "FT" "ft" rfl

/-- C10: the from-group of every successful parse contains no decimal
digit, so a registered source unit whose name contains a digit cannot be
parsed: `1 m^2 to ft^2` raises a parse error even though `m^2` and `ft^2`
are both registered area units. -/
theorem C10_from_unit_never_contains_digit :
    (∀ (s : String) (g : MatchGroups), EXPR_PAT_match s = some g →
      g.2.1.data.all (fun c => !c.isDigit) = true) ∧
    (∀ (sem : MathSem) (deg : Bool), parse_and_convert sem "1 m^2 to ft^2" deg =
      .error "Could not parse expression. Try like: 3 ft to cm  |  5 kg in lb") ∧
    (UnitRegistry.get ureg "area" "m^2").map Unit'.name = some "m^2" ∧
    (UnitRegistry.get ureg "area" "ft^2").map Unit'.name = some "ft^2" :=
  ⟨EXPR_PAT_from_no_digit, fun _ _ => rfl, rfl, rfl⟩

/-- C10 (witness): the no-digit invariant at a concrete successful match. -/
theorem C10_from_unit_never_contains_digit_witness :
    ("ft" : String).data.all (fun c => !c.isDigit) = true :=
  C10_from_unit_never_contains_digit.1 "3 ft to cm" ("3", "ft", "cm") rfl
